import Mathlib

/-!
Verification development for the German grammar-drill application.
The definitions below are a shallow embedding of the answer-checking,
error-classification and spaced-repetition code of the repository
(src/sentences.py, src/app.py, src/error_analyzer.py, src/database.py).
-/

namespace GermanApp

/-- Punctuation characters stripped by the source; the Python strip set is
the string of period, comma, semicolon, colon, bang, question mark, double
quote, apostrophe, parentheses, square brackets, curly braces, en dash and
em dash (braces and apostrophe written as escapes here). -/
def punct_chars : List Char :=
  ['.', ',', ';', ':', '!', '?', '"', '\x27', '(', ')', '[', ']',
   '\x7b', '\x7d', '–', '—']

def is_punct (c : Char) : Bool := punct_chars.contains c

/-- Embeds the Python `word.strip(".,;:!?...")` used throughout
`src/sentences.py`: drops the punctuation characters from both ends. -/
def clean_word (w : String) : String :=
  String.mk (((w.toList.dropWhile is_punct).reverse.dropWhile is_punct).reverse)

/-- Embeds the trailing-punctuation suffix loop of `prepare_exercise`
(src/sentences.py 714-719): the run of punctuation characters at the end
of the word, in original order. -/
def word_suffix (w : String) : String :=
  String.mk ((w.toList.reverse.takeWhile is_punct).reverse)

/-- Helper for `py_split`: splits a character list on whitespace runs,
accumulating the current word reversed. -/
def words_aux : List Char → List Char → List (List Char)
  | [], cur => if cur.isEmpty then [] else [cur.reverse]
  | c :: cs, cur =>
    if c.isWhitespace then
      if cur.isEmpty then words_aux cs [] else cur.reverse :: words_aux cs []
    else words_aux cs (c :: cur)

/-- Embeds the Python `text.split()` (split on whitespace runs, no empty
pieces) used by `_compute_positions` and `prepare_exercise`. -/
def py_split (s : String) : List String :=
  (words_aux s.toList []).map (fun cs => String.mk cs)

/-- Embeds the Python substring test `needle in hay` used by
`_classify_error` on clause types. -/
def str_contains (hay needle : String) : Bool :=
  (List.range (hay.toList.length + 1)).any
    (fun i => ((hay.toList.drop i).take needle.toList.length) == needle.toList)

/-- An exercise template of the sentence bank (src/sentences.py). -/
structure Template where
  id : String
  text : String
  verbs : List String
  clause_type : String
  difficulty : ℕ
  explanation : String
deriving Repr, DecidableEq

/-- One entry of `all_slots` built by `prepare_exercise`. -/
structure Slot where
  index : ℕ
  correct_word : String
  suffix : String
  is_verb : Bool
deriving Repr, DecidableEq

/-- One entry of `verb_slots` built by `prepare_exercise`. -/
structure VerbSlot where
  index : ℕ
  correct_verb : String
  suffix : String
deriving Repr, DecidableEq

/-- Embeds the inner search of `_compute_positions` (src/sentences.py
659-673): the first word index whose cleaned word equals the verb and
which is not already used. The accumulated position list doubles as the
used set, exactly as in the source where `positions` and `used_positions`
always hold the same indices. -/
def find_pos (words : List String) (used : List ℕ) (verb : String) : Option ℕ :=
  (List.range words.length).find?
    (fun i => clean_word (words.getD i "") == verb && !(used.contains i))

/-- Embeds `_compute_positions` (src/sentences.py 659-673): for each verb
in order, the first fresh matching word position; verbs with no match are
skipped. -/
def compute_positions (text : String) (verbs : List String) : List ℕ :=
  let words := py_split text
  verbs.foldl
    (fun acc verb =>
      match find_pos words acc verb with
      | some i => acc ++ [i]
      | none => acc) []

/-- Python list swap `x[i], x[j] = x[j], x[i]`; identity when an index is
out of range (never happens in `pyShuffle`). -/
def lswap {α : Type} (l : List α) (i j : ℕ) : List α :=
  match l[i]?, l[j]? with
  | some a, some b => (l.set i b).set j a
  | _, _ => l

/-- Embeds `random.shuffle` (Fisher-Yates): for i from len-1 down to 1,
swap position i with a drawn position j in [0, i]. The random draws are
abstracted as an arbitrary function `rand`, reduced mod (i+1) so every
possible draw sequence is covered. -/
def py_shuffle (rand : ℕ → ℕ) (l : List String) : List String :=
  (List.range (l.length - 1)).foldl
    (fun acc k =>
      lswap acc (l.length - 1 - k)
        (rand (l.length - 1 - k) % (l.length - 1 - k + 1))) l

/-- The exercise dict returned by `prepare_exercise` (src/sentences.py
698-756). The legacy key `slots` is the same list as `verb_slots`. -/
structure Exercise where
  template_id : String
  full_text : String
  words : List String
  all_slots : List Slot
  verb_slots : List VerbSlot
  verb_positions : List ℕ
  shuffled_words : List String
  clause_type : String
  difficulty : ℕ
  explanation : String
  slots : List VerbSlot
  verbs : List String
  positions : List ℕ
deriving Repr

/-- Embeds `prepare_exercise` (src/sentences.py 698-756), full-sentence
mode: every word is a slot; the word tray is a shuffle of the cleaned
words. The randomness of `random.shuffle` is passed in as `rand`. -/
def prepare_exercise (rand : ℕ → ℕ) (template : Template) : Exercise :=
  let text := template.text
  let verbs := template.verbs
  let verb_positions := compute_positions text verbs
  let words := py_split text
  let all_slots := (List.range words.length).map
    (fun i =>
      { index := i
        correct_word := clean_word (words.getD i "")
        suffix := word_suffix (words.getD i "")
        is_verb := verb_positions.contains i : Slot })
  let verb_slots := (all_slots.filter (fun s => s.is_verb)).map
    (fun s => { index := s.index, correct_verb := s.correct_word,
                suffix := s.suffix : VerbSlot })
  let shuffled_words := py_shuffle rand (all_slots.map (fun s => s.correct_word))
  { template_id := template.id
    full_text := text
    words := words
    all_slots := all_slots
    verb_slots := verb_slots
    verb_positions := verb_positions
    shuffled_words := shuffled_words
    clause_type := template.clause_type
    difficulty := template.difficulty
    explanation := template.explanation
    slots := verb_slots
    verbs := verbs
    positions := verb_positions }

/-- One entry of the submitted `positions` payload of `/api/check`
(src/app.py 564). -/
structure Placement where
  slot_index : ℕ
  word : String
deriving Repr, DecidableEq

/-- Embeds the lookup loop of `api_check_answer` (src/app.py 579-583):
the first submitted placement for a slot index, if any. -/
def lookup_user_word (ups : List Placement) (idx : ℕ) : Option String :=
  (ups.find? (fun up => up.slot_index == idx)).map (fun up => up.word)

/-- One entry of `slot_results` in `api_check_answer` (src/app.py 587-594). -/
structure SlotResult where
  index : ℕ
  correct_word : String
  user_word : Option String
  is_correct : Bool
  is_verb : Bool
  suffix : String
deriving Repr, DecidableEq

/-- One entry of the `verb_user_positions` list built by
`api_check_answer` (src/app.py 597-610). -/
structure VerbPlacement where
  slot_index : ℕ
  verb : String
deriving Repr, DecidableEq

/-- Embeds the verb-only extraction of `api_check_answer` (src/app.py
597-610): for the k-th verb slot, the submitted word at its word index,
with `None` replaced by the empty string as in `user_word or ""`. -/
def verb_user_positions (ex : Exercise) (ups : List Placement) :
    List VerbPlacement :=
  (List.range ex.verb_slots.length).map
    (fun k =>
      let slot := ex.verb_slots.getD k { index := 0, correct_verb := "", suffix := "" }
      { slot_index := k, verb := (lookup_user_word ups slot.index).getD "" })

/-- One classified error produced by `analyze_errors`
(src/error_analyzer.py 124-175). -/
structure ClassifiedError where
  category : String
  expected : String
  got : Option String
  position : ℕ
  detail : String
deriving Repr, DecidableEq

/-- The closed auxiliary list of `_classify_error`
(src/error_analyzer.py 190). -/
def aux_forms : List String :=
  ["hat", "hatte", "ist", "war", "habe", "hätte", "wäre", "worden"]

/-- The closed modal list of `_classify_error`
(src/error_analyzer.py 194-195). -/
def modal_forms : List String :=
  ["kann", "muss", "will", "soll", "darf", "möchte",
   "konnte", "musste", "wollte", "sollte", "durfte", "könnte"]

/-- The sixteen keys of the static `ERROR_CATEGORIES` table
(src/error_analyzer.py 8-121), in source order. -/
def error_category_keys : List String :=
  ["verb_not_at_end", "wrong_verb_order", "auxiliary_before_participle",
   "modal_before_infinitive", "double_infinitive_error",
   "wrong_clause_assignment", "separable_not_joined", "inversion_missing",
   "konnektor_position", "zweiteilig_incomplete", "wrong_adjective_ending",
   "wrong_passive_form", "wrong_konjunktiv_form", "wrong_relative_pronoun",
   "wrong_preposition", "wrong_nominalization"]

/-- Embeds `_classify_error` (src/error_analyzer.py 178-206). The loop
over `exercise["slots"]` returns on the first slot holding the placed
token at a different index; since the returned value does not depend on
which slot matched, it is an existential test. -/
def classify_error (ex : Exercise) (slot : VerbSlot) (placed expected : String) :
    String :=
  if ex.verbs.contains placed && ex.verbs.contains expected &&
      ex.slots.any (fun s => s.correct_verb == placed && s.index != slot.index) then
    if str_contains ex.clause_type "perfekt" || str_contains ex.clause_type "plusquam" then
      if aux_forms.contains placed then "auxiliary_before_participle"
      else "wrong_verb_order"
    else if str_contains ex.clause_type "modal" then
      if modal_forms.contains placed then "modal_before_infinitive"
      else "wrong_verb_order"
    else if str_contains ex.clause_type "double_infinitive" then
      "double_infinitive_error"
    else "wrong_verb_order"
  else if ex.verbs.contains placed then "wrong_clause_assignment"
  else "verb_not_at_end"

/-- Embeds the `user_map` dict built by `analyze_errors`
(src/error_analyzer.py 140-146) as an association list; later entries
overwrite earlier ones, so lookup scans the reversed list. -/
def build_user_map (slots : List VerbSlot) (ups : List VerbPlacement) :
    List (ℕ × String) :=
  ups.foldl
    (fun acc up =>
      if up.slot_index < slots.length then
        acc ++ [((slots.getD up.slot_index
                    { index := 0, correct_verb := "", suffix := "" }).index,
                 up.verb)]
      else acc) []

/-- Dict lookup with last-assignment-wins semantics. -/
def map_get (m : List (ℕ × String)) (k : ℕ) : Option String :=
  (m.reverse.find? (fun p => p.1 == k)).map (fun p => p.2)

/-- Embeds `analyze_errors` (src/error_analyzer.py 124-175): one error per
verb slot that is unfilled or filled with the wrong token, in slot order.
The detail strings reproduce the f-strings of the source, with
apostrophes written as the escape x27. -/
def analyze_errors (ex : Exercise) (ups : List VerbPlacement) :
    List ClassifiedError :=
  ex.slots.filterMap
    (fun slot =>
      match map_get (build_user_map ex.slots ups) slot.index with
      | none => some
          { category := "verb_not_at_end"
            expected := slot.correct_verb
            got := none
            position := slot.index
            detail := "No verb placed at position " ++ toString slot.index ++
              ". Expected \x27" ++ slot.correct_verb ++ "\x27." }
      | some placed =>
        if placed != slot.correct_verb then some
          { category := classify_error ex slot placed slot.correct_verb
            expected := slot.correct_verb
            got := some placed
            position := slot.index
            detail := "Expected \x27" ++ slot.correct_verb ++
              "\x27 at position " ++ toString slot.index ++ ", but got \x27" ++
              placed ++ "\x27." }
        else none)

/-- The result assembled by `api_check_answer` (src/app.py 556-639):
overall verdict, per-slot results, and the classified errors. One retry
is scheduled and one error row is logged per classified error
(src/app.py 626-631), so both counts equal `errors.length`. -/
structure CheckResult where
  correct : Bool
  slot_results : List SlotResult
  errors : List ClassifiedError
deriving Repr

/-- Embeds the computational core of `api_check_answer` (src/app.py
556-639): re-derive the exercise from the template, compare every word
position, then run the error analyzer over the verb slots only. -/
def api_check_answer (rand : ℕ → ℕ) (template : Template)
    (ups : List Placement) : CheckResult :=
  let ex := prepare_exercise rand template
  let slot_results := ex.all_slots.map
    (fun slot =>
      let user_word := lookup_user_word ups slot.index
      { index := slot.index
        correct_word := slot.correct_word
        user_word := user_word
        is_correct := user_word == some slot.correct_word
        is_verb := slot.is_verb
        suffix := slot.suffix : SlotResult })
  let all_correct := slot_results.all (fun r => r.is_correct)
  let errors := analyze_errors ex (verb_user_positions ex ups)
  { correct := all_correct, slot_results := slot_results, errors := errors }

/-- Number of retry-queue entries scheduled by `api_check_answer`
(src/app.py 626-631): one per classified error, none otherwise. -/
def retries_scheduled (r : CheckResult) : ℕ := r.errors.length

/-- Number of error-log rows written by `api_check_answer`
(src/app.py 626-631): one per classified error. -/
def errors_logged (r : CheckResult) : ℕ := r.errors.length

/-- A row of the `grammar_rules` table (src/database.py 81-93), with the
floating-point columns modelled as rationals and timestamps as rational
day numbers. -/
structure RuleState where
  times_tested : ℕ
  times_correct : ℕ
  ease_factor : ℚ
  interval_days : ℚ
  last_tested : ℚ
  next_review : ℚ
deriving Repr, DecidableEq

/-- Embeds `update_grammar_rule` (src/database.py 341-389): `none` is the
no-existing-row case (first attempt), `some row` the update case. `now`
is the current time as a day number, so `now + interval` models
`datetime.now() + timedelta(days=interval)`. -/
def update_grammar_rule (st : Option RuleState) (was_correct : Bool)
    (now : ℚ) : RuleState :=
  match st with
  | some row =>
    let times_tested := row.times_tested + 1
    let times_correct := row.times_correct + (if was_correct then 1 else 0)
    let ease_factor := row.ease_factor
    let interval_days := row.interval_days
    let interval_days' := if was_correct then interval_days * ease_factor else 1
    let ease_factor' :=
      if was_correct then min (ease_factor + 0.1) 3.0
      else max (ease_factor - 0.2) 1.3
    { times_tested := times_tested
      times_correct := times_correct
      ease_factor := ease_factor'
      interval_days := interval_days'
      last_tested := now
      next_review := now + interval_days' }
  | none =>
    let interval_days : ℚ := if !was_correct then 1 else 2.5
    let ease_factor : ℚ := 2.5
    { times_tested := 1
      times_correct := if was_correct then 1 else 0
      ease_factor := ease_factor
      interval_days := interval_days
      last_tested := now
      next_review := now + interval_days }

/-- Runs a first attempt followed by a sequence of further attempts, each
given as a pair of correctness and current time. -/
def run_attempts (first : Bool) (t0 : ℚ) (rest : List (Bool × ℚ)) : RuleState :=
  rest.foldl (fun st p => update_grammar_rule (some st) p.1 p.2)
    (update_grammar_rule none first t0)

/-- A row of the `retry_queue` table (src/database.py 53-60), with dates
as integer day numbers (ISO date strings compare in date order). -/
structure RetryEntry where
  id : ℕ
  user_token : String
  template_id : String
  source_error_id : ℕ
  scheduled_after : ℤ
  completed : Bool
deriving Repr, DecidableEq

/-- Embeds `schedule_retry` (src/database.py 179-189): inserts a row
scheduled for `today + days_delay` (the parameter defaults to 2 and every
caller in src/app.py passes 2), not completed. -/
def schedule_retry (q : List RetryEntry) (next_id : ℕ) (user_token : String)
    (template_id : String) (error_id : ℕ) (today : ℤ) (days_delay : ℤ) :
    List RetryEntry :=
  q ++ [{ id := next_id
          user_token := user_token
          template_id := template_id
          source_error_id := error_id
          scheduled_after := today + days_delay
          completed := false }]

/-- The WHERE clause of `get_retry_template` (src/database.py 132-136). -/
def retry_due (user_token : String) (today : ℤ) (e : RetryEntry) : Bool :=
  e.user_token == user_token && !e.completed && e.scheduled_after ≤ today

/-- First entry with minimal key among a list; models the SQL
`ORDER BY scheduled_after ASC LIMIT 1`. -/
def min_by_sched : List RetryEntry → Option RetryEntry
  | [] => none
  | e :: es =>
    match min_by_sched es with
    | none => some e
    | some b => if e.scheduled_after ≤ b.scheduled_after then some e else some b

/-- Embeds `get_retry_template` (src/database.py 128-138): among the
requesting user's not-completed entries due today or earlier, the one
with the earliest scheduled date, if any. -/
def get_retry_template (q : List RetryEntry) (user_token : String)
    (today : ℤ) : Option RetryEntry :=
  min_by_sched (q.filter (retry_due user_token today))

/-- Embeds `get_template_by_id` (src/sentences.py 772-777): first bank
entry with the requested id. -/
def get_template_by_id (bank : List Template) (template_id : String) :
    Option Template :=
  bank.find? (fun t => t.id == template_id)

/-- Embeds the exercise-selection prologue of `exercise_page` (src/app.py
100-121): a due retry whose template resolves is served (together with
its retry id) in preference to the freshly drawn exercise `fresh`; the
`skip_retry` query flag bypasses the retry queue. -/
def exercise_page_choice (q : List RetryEntry) (user_token : String)
    (today : ℤ) (skip_retry : Bool) (bank : List Template)
    (fresh : Option Template) : Option Template × Option ℕ :=
  match (match get_retry_template q user_token today with
    | some r =>
      if skip_retry then none
      else (get_template_by_id bank r.template_id).map (fun t => (t, r.id))
    | none => none) with
  | some (t, rid) => (some t, some rid)
  | none => (fresh, none)

/-- One entry of `slot_results` in `api_check_transformation`
(src/app.py 384-389). -/
structure TSlotResult where
  index : ℕ
  correct_word : String
  user_word : Option String
  is_correct : Bool
deriving Repr, DecidableEq

/-- Stable insertion step for sorting placements by slot index. -/
def insert_by_slot (x : Placement) : List Placement → List Placement
  | [] => [x]
  | y :: ys =>
    if y.slot_index ≤ x.slot_index then y :: insert_by_slot x ys
    else x :: y :: ys

/-- Embeds the Python stable `sorted(user_positions, key=slot_index)`
of `api_check_transformation` (src/app.py 375). -/
def sort_by_slot (ups : List Placement) : List Placement :=
  ups.foldl (fun acc x => insert_by_slot x acc) []

/-- Embeds the checking loop of `api_check_transformation` (src/app.py
371-389): the submitted words in slot-index order are compared
position-by-position against `correct_words`; a missing position counts
as a mismatch, and positions past the target list are never examined. -/
def check_transformation (correct_words : List String)
    (ups : List Placement) : List TSlotResult × Bool :=
  let user_words := (sort_by_slot ups).map (fun p => p.word)
  let slot_results := (List.range correct_words.length).map
    (fun i =>
      let correct_word := correct_words.getD i ""
      let user_word := user_words[i]?
      { index := i
        correct_word := correct_word
        user_word := user_word
        is_correct := user_word == some correct_word : TSlotResult })
  (slot_results, slot_results.all (fun r => r.is_correct))

/-- The `safe_exercise` payload of the `/exercise` page route
(src/app.py 126-134). -/
structure PageSafeExercise where
  template_id : String
  num_slots : ℕ
  slot_suffixes : List String
  verb_indices : List ℕ
  shuffled_words : List String
  clause_type : String
  difficulty : ℕ
deriving Repr

/-- Embeds the `safe_exercise` construction of `exercise_page`
(src/app.py 126-134). -/
def page_safe_exercise (ex : Exercise) : PageSafeExercise :=
  { template_id := ex.template_id
    num_slots := ex.all_slots.length
    slot_suffixes := ex.all_slots.map (fun s => s.suffix)
    verb_indices := ex.verb_positions
    shuffled_words := ex.shuffled_words
    clause_type := ex.clause_type
    difficulty := ex.difficulty }

/-- The `slots` entries of the `/api/exercise` payload
(src/app.py 548). -/
structure ApiSlotInfo where
  index : ℕ
  suffix : String
deriving Repr, DecidableEq

/-- The `safe` payload of the `/api/exercise` route (src/app.py 543-552).
The source also reads the key `display_text`, which `prepare_exercise`
never produces, so the route raises a KeyError at runtime; that field is
omitted here. The `words` field copies the full ordered word list of the
sentence. -/
structure ApiSafeExercise where
  template_id : String
  words : List String
  verbs : List String
  slots : List ApiSlotInfo
  difficulty : ℕ
  clause_type : String
  num_slots : ℕ
deriving Repr

/-- Embeds the `safe` construction of `api_get_exercise`
(src/app.py 543-552). -/
def api_safe_exercise (ex : Exercise) : ApiSafeExercise :=
  { template_id := ex.template_id
    words := ex.words
    verbs := ex.verbs
    slots := ex.slots.map (fun s => { index := s.index, suffix := s.suffix })
    difficulty := ex.difficulty
    clause_type := ex.clause_type
    num_slots := ex.slots.length }

/-- The sentence-bank template `a2_dass_01` (src/sentences.py 33-41). -/
def tmpl_a2_dass_01 : Template :=
  { id := "a2_dass_01"
    text := "Ich weiß, dass er jeden Tag Deutsch lernt."
    verbs := ["lernt"]
    clause_type := "dass_clause"
    difficulty := 1
    explanation := "In a \x27dass\x27 clause, the conjugated verb moves to the final position." }

/-- The sentence-bank template `b1_perfekt_01` (src/sentences.py 156-163). -/
def tmpl_b1_perfekt_01 : Template :=
  { id := "b1_perfekt_01"
    text := "Ich weiß, dass er gestern das Buch gelesen hat."
    verbs := ["gelesen", "hat"]
    clause_type := "perfekt_in_nebensatz"
    difficulty := 2
    explanation := "In a subordinate clause with Perfekt, the auxiliary \x27hat\x27 goes to the very end, after the past participle \x27gelesen\x27." }

/-- The target word list of the transformation exercise `pass_003`
(src/grammar_exercises.py). -/
def pass_003_target_words : List String :=
  ["Die", "Straße", "wird", "repariert"]

/-- A fixed shuffle-randomness stream used for concrete evaluations. -/
def rand0 : ℕ → ℕ := fun _ => 0

section SwapPerm

variable {α : Type} [DecidableEq α]

/-- Counting elements through a single list update: setting position `n`
to `b` removes one occurrence of the old element and adds one of `b`. -/
theorem count_set_aux (x b : α) :
    ∀ (l : List α) (n : ℕ) (h : n < l.length),
      (l.set n b).count x + (if l[n] = x then 1 else 0)
        = l.count x + (if b = x then 1 else 0) := by
  intro l
  induction l with
  | nil => intro n h; simp at h
  | cons a t ih =>
    intro n h
    cases n with
    | zero =>
      simp only [List.set_cons_zero, List.count_cons, List.getElem_cons_zero]
      split_ifs <;> simp_all
    | succ m =>
      have hm : m < t.length := by simpa using h
      simp only [List.set_cons_succ, List.count_cons, List.getElem_cons_succ]
      have hih := ih m hm
      split_ifs at hih ⊢ <;> omega

/-- A Python-style swap is a permutation of the list. -/
theorem lswap_perm (l : List α) (i j : ℕ) : List.Perm (lswap l i j) l := by
  unfold lswap
  split
  case h_2 => exact List.Perm.refl l
  case h_1 a b hi hj =>
    have hi' : i < l.length := (List.getElem?_eq_some.mp hi).1
    have hj' : j < l.length := (List.getElem?_eq_some.mp hj).1
    have ha : l[i] = a := by
      have := (List.getElem?_eq_some.mp hi).2; simpa using this
    have hb : l[j] = b := by
      have := (List.getElem?_eq_some.mp hj).2; simpa using this
    rw [List.perm_iff_count]
    intro x
    have h1 := count_set_aux x b l i hi'
    have hj'' : j < (l.set i b).length := by simpa using hj'
    have h2 := count_set_aux x a (l.set i b) j hj''
    have hset : (l.set i b)[j] = if i = j then b else l[j] := by
      by_cases hij : i = j
      · subst hij; simp [List.getElem_set_self]
      · simp [List.getElem_set_ne hij, hij]
    by_cases hij : i = j
    · subst hij
      rw [hset] at h2
      simp only [if_pos rfl] at h2
      have hab : a = b := by rw [← ha, ← hb]
      subst hab
      rw [ha] at h1
      split_ifs at h1 h2 <;> omega
    · rw [hset, if_neg hij, hb] at h2
      rw [ha] at h1
      split_ifs at h1 h2 <;> omega

/-- Folding Python swaps over any index stream permutes the list. -/
theorem foldl_lswap_perm (g h : ℕ → ℕ) :
    ∀ (ks : List ℕ) (acc : List α),
      List.Perm (ks.foldl (fun a k => lswap a (g k) (h k)) acc) acc := by
  intro ks
  induction ks with
  | nil => intro acc; exact List.Perm.refl acc
  | cons k ks ih =>
    intro acc
    exact (ih (lswap acc (g k) (h k))).trans (lswap_perm acc (g k) (h k))

end SwapPerm

/-- The embedded `random.shuffle` only permutes its input, whatever the
random draws are. -/
theorem py_shuffle_perm (rand : ℕ → ℕ) (l : List String) :
    List.Perm (py_shuffle rand l) l := by
  unfold py_shuffle
  exact foldl_lswap_perm (fun k => l.length - 1 - k)
    (fun k => rand (l.length - 1 - k) % (l.length - 1 - k + 1))
    (List.range (l.length - 1)) l

/-- C9: for every template and every shuffle randomness, the word tray
`shuffled_words` of the materializer is a permutation of the clean
expected tokens of the slots: the two multisets are equal, so reordering
only, no token created or lost. -/
theorem c9_multiset_preservation (rand : ℕ → ℕ) (t : Template) :
    ((prepare_exercise rand t).shuffled_words : Multiset String) =
      (((prepare_exercise rand t).all_slots.map
          (fun s => s.correct_word) : List String) : Multiset String) := by
  refine Multiset.coe_eq_coe.mpr ?_
  exact py_shuffle_perm rand _

/-- C3: the SM-2 update of `update_grammar_rule` follows the claimed
equations exactly. On an existing row, a correct attempt multiplies the
interval by the old ease and caps ease at old + 0.1 (at most 3.0); an
incorrect attempt resets the interval to 1 and floors ease at old - 0.2
(at least 1.3); the next review is now plus the new interval. On the
first attempt the ease stays 2.5 (no +0.1) and the interval is 2.5 when
correct, 1 when incorrect. -/
theorem c3_sm2_update (old : RuleState) (now : ℚ) :
    ((update_grammar_rule (some old) true now).interval_days
        = old.interval_days * old.ease_factor) ∧
    ((update_grammar_rule (some old) true now).ease_factor
        = min (old.ease_factor + 0.1) 3.0) ∧
    ((update_grammar_rule (some old) false now).interval_days = 1) ∧
    ((update_grammar_rule (some old) false now).ease_factor
        = max (old.ease_factor - 0.2) 1.3) ∧
    (∀ b : Bool, (update_grammar_rule (some old) b now).next_review
        = now + (update_grammar_rule (some old) b now).interval_days) ∧
    ((update_grammar_rule none true now).ease_factor = 2.5) ∧
    ((update_grammar_rule none true now).interval_days = 2.5) ∧
    ((update_grammar_rule none false now).ease_factor = 2.5) ∧
    ((update_grammar_rule none false now).interval_days = 1) ∧
    (∀ b : Bool, (update_grammar_rule none b now).next_review
        = now + (update_grammar_rule none b now).interval_days) := by
  refine ⟨rfl, rfl, rfl, rfl, ?_, rfl, rfl, rfl, rfl, ?_⟩
  · intro b; cases b <;> rfl
  · intro b; cases b <;> rfl

/-- The scheduler invariant of C4. -/
def rule_invariant (st : RuleState) : Prop :=
  1.3 ≤ st.ease_factor ∧ st.ease_factor ≤ 3.0 ∧ 0 < st.interval_days

/-- The first-attempt branch establishes the invariant. -/
theorem init_rule_invariant (b : Bool) (now : ℚ) :
    rule_invariant (update_grammar_rule none b now) := by
  cases b <;> constructor <;> norm_num [update_grammar_rule, rule_invariant]

/-- Every update on an existing row preserves the invariant. -/
theorem update_rule_invariant (st : RuleState) (h : rule_invariant st)
    (b : Bool) (now : ℚ) :
    rule_invariant (update_grammar_rule (some st) b now) := by
  obtain ⟨h1, h2, h3⟩ := h
  cases b
  · refine ⟨le_max_right _ _, max_le (by linarith) (by norm_num), one_pos⟩
  · refine ⟨le_min (by linarith) (by norm_num), min_le_right _ _, ?_⟩
    exact mul_pos h3 (lt_of_lt_of_le (by norm_num) h1)

/-- C4: whatever the sequence of attempts after the first, the stored
ease factor stays within [1.3, 3.0] and the interval stays strictly
positive. -/
theorem c4_ease_bounds (first : Bool) (t0 : ℚ) (rest : List (Bool × ℚ)) :
    1.3 ≤ (run_attempts first t0 rest).ease_factor ∧
    (run_attempts first t0 rest).ease_factor ≤ 3.0 ∧
    0 < (run_attempts first t0 rest).interval_days := by
  show rule_invariant (run_attempts first t0 rest)
  unfold run_attempts
  have h0 := init_rule_invariant first t0
  generalize update_grammar_rule none first t0 = st at h0 ⊢
  induction rest generalizing st with
  | nil => exact h0
  | cons p ps ih =>
    exact ih _ (update_rule_invariant st h0 p.1 p.2)

/-- Position-by-position agreement with the target list is equivalent to
the target being an initial segment of the submitted words. -/
theorem forall_get_iff_take (cw : List String) :
    ∀ (u : List String),
      (∀ i < cw.length, u[i]? = some (cw.getD i "")) ↔
        (cw.length ≤ u.length ∧ u.take cw.length = cw) := by
  induction cw with
  | nil => intro u; simp
  | cons c cs ih =>
    intro u
    cases u with
    | nil =>
      constructor
      · intro h
        have h0 := h 0 (by simp)
        simp at h0
      · intro h
        have := h.1
        simp at this
    | cons a u =>
      have hih := ih u
      constructor
      · intro h
        have h0 := h 0 (by simp)
        simp at h0
        have hrest : ∀ i < cs.length, u[i]? = some (cs.getD i "") := by
          intro i hi
          have := h (i + 1) (by simpa using Nat.succ_lt_succ hi)
          simpa using this
        obtain ⟨hle, htake⟩ := hih.mp hrest
        refine ⟨by simpa using Nat.succ_le_succ hle, ?_⟩
        rw [List.length_cons, List.take_succ_cons, htake, h0]
      · intro h
        obtain ⟨hle, htake⟩ := h
        simp only [List.length_cons, List.take_succ_cons, List.cons.injEq] at htake
        obtain ⟨ha, htu⟩ := htake
        have hle' : cs.length ≤ u.length := by simpa using hle
        have hrest := hih.mpr ⟨hle', htu⟩
        intro i hi
        cases i with
        | zero => simp [ha]
        | succ m =>
          have hm : m < cs.length := by simpa using hi
          simpa using hrest m hm

/-- C7 (amended): the transformation check compares the submitted words,
ordered by declared slot index, token by token against the target list.
When fewer tokens are submitted than expected, every position past the
submitted list is a mismatch and the overall result is incorrect. When
more tokens are submitted, the positions past the target list are never
examined: the overall result is true exactly when the first
target-length submitted tokens equal the target, so extra tokens are
ignored rather than treated as mismatches. -/
theorem c7_transformation_check (cw : List String) (ups : List Placement) :
    ((check_transformation cw ups).2 = true ↔
      (cw.length ≤ ((sort_by_slot ups).map (fun p => p.word)).length ∧
        ((sort_by_slot ups).map (fun p => p.word)).take cw.length = cw)) ∧
    (((sort_by_slot ups).map (fun p => p.word)).length < cw.length →
      (check_transformation cw ups).2 = false) ∧
    (∀ i, ((sort_by_slot ups).map (fun p => p.word)).length ≤ i →
      i < cw.length →
      ((check_transformation cw ups).1.getD i
          { index := 0, correct_word := "", user_word := none,
            is_correct := true }).is_correct = false) := by
  have hmain : (check_transformation cw ups).2 = true ↔
      ∀ i < cw.length,
        ((sort_by_slot ups).map (fun p => p.word))[i]? =
          some (cw.getD i "") := by
    rw [show (check_transformation cw ups).2 =
        ((List.range cw.length).map (fun i =>
          { index := i
            correct_word := cw.getD i ""
            user_word := ((sort_by_slot ups).map (fun p => p.word))[i]?
            is_correct := ((sort_by_slot ups).map (fun p => p.word))[i]? ==
              some (cw.getD i "") : TSlotResult })).all
          (fun r => r.is_correct) from rfl]
    rw [List.all_eq_true]
    constructor
    · intro h i hi
      have hm := h _ (List.mem_map_of_mem _ (List.mem_range.mpr hi))
      exact beq_iff_eq.mp hm
    · intro h r hr
      obtain ⟨i, hi, rfl⟩ := List.mem_map.mp hr
      exact beq_iff_eq.mpr (h i (List.mem_range.mp hi))
  refine ⟨hmain.trans
    (forall_get_iff_take cw ((sort_by_slot ups).map (fun p => p.word))), ?_, ?_⟩
  · intro hlt
    cases hc : (check_transformation cw ups).2
    · rfl
    · have := (hmain.trans
        (forall_get_iff_take cw ((sort_by_slot ups).map (fun p => p.word)))).mp hc
      omega
  · intro i hle hlt
    have hres : (check_transformation cw ups).1 =
        (List.range cw.length).map (fun i =>
          { index := i
            correct_word := cw.getD i ""
            user_word := ((sort_by_slot ups).map (fun p => p.word))[i]?
            is_correct := ((sort_by_slot ups).map (fun p => p.word))[i]? ==
              some (cw.getD i "") : TSlotResult }) := rfl
    rw [hres]
    have hi' : i < ((List.range cw.length).map (fun i =>
        { index := i
          correct_word := cw.getD i ""
          user_word := ((sort_by_slot ups).map (fun p => p.word))[i]?
          is_correct := ((sort_by_slot ups).map (fun p => p.word))[i]? ==
            some (cw.getD i "") : TSlotResult })).length := by
      simpa using hlt
    rw [List.getD_eq_getElem _ _ hi']
    have hnone : ((sort_by_slot ups).map (fun p => p.word))[i]? = none :=
      List.getElem?_eq_none hle
    simp only [List.getElem_map, List.getElem_range]
    show (((sort_by_slot ups).map (fun p => p.word))[i]? ==
        some (cw.getD i "")) = false
    rw [hnone]
    rfl

/-- C7 counterexample: submitting one more token than the target list of
the stored transformation exercise pass_003 leaves the extra token
unexamined and the overall result is still reported correct, contradicting
the claim that a length mismatch in either direction forces an overall
incorrect result. -/
theorem c7_counterexample :
    (check_transformation pass_003_target_words
        [{ slot_index := 0, word := "Die" },
         { slot_index := 1, word := "Straße" },
         { slot_index := 2, word := "wird" },
         { slot_index := 3, word := "repariert" },
         { slot_index := 4, word := "extra" }]).2 = true ∧
    ([{ slot_index := 0, word := "Die" },
      { slot_index := 1, word := "Straße" },
      { slot_index := 2, word := "wird" },
      { slot_index := 3, word := "repariert" },
      { slot_index := 4, word := "extra" }] : List Placement).length
      = pass_003_target_words.length + 1 := by
  constructor
  · rfl
  · rfl

/-- Mapping commutes with the boolean `all`, for maps between different
types (the core library lemma is restricted to endomaps). -/
theorem all_map_general {α β : Type} (f : α → β) (p : β → Bool) (l : List α) :
    (l.map f).all p = l.all (p ∘ f) := by
  induction l with
  | nil => rfl
  | cons a t ih => simp [List.all_cons, ih, Function.comp]

/-- The overall verdict of the answer check is an `all` over the word
positions of the re-derived sentence. -/
theorem api_correct_eq_all (rand : ℕ → ℕ) (t : Template)
    (ups : List Placement) :
    (api_check_answer rand t ups).correct =
      (List.range (py_split t.text).length).all (fun i =>
        lookup_user_word ups i ==
          some (clean_word ((py_split t.text).getD i ""))) := by
  show (((List.range (py_split t.text).length).map _).map _).all _ = _
  rw [List.map_map, all_map_general]
  rfl

/-- C1: the reconstruction answer check is a full-sentence exact-match
check. The overall result is true exactly when at every word position of
the re-derived sentence the submitted token equals the clean
punctuation-stripped expected token at that position; a position with no
submitted token makes it false, and a submitted token differing from the
expected clean token at its position makes it false. -/
theorem c1_full_sentence_check (rand : ℕ → ℕ) (t : Template)
    (ups : List Placement) :
    ((api_check_answer rand t ups).correct = true ↔
      ∀ i < (py_split t.text).length,
        lookup_user_word ups i =
          some (clean_word ((py_split t.text).getD i ""))) ∧
    (∀ i < (py_split t.text).length, lookup_user_word ups i = none →
      (api_check_answer rand t ups).correct = false) ∧
    (∀ i, ∀ w : String, i < (py_split t.text).length →
      lookup_user_word ups i = some w →
      w ≠ clean_word ((py_split t.text).getD i "") →
      (api_check_answer rand t ups).correct = false) := by
  have hiff : (api_check_answer rand t ups).correct = true ↔
      ∀ i < (py_split t.text).length,
        lookup_user_word ups i =
          some (clean_word ((py_split t.text).getD i "")) := by
    rw [api_correct_eq_all, List.all_eq_true]
    constructor
    · intro h i hi
      exact beq_iff_eq.mp (h i (List.mem_range.mpr hi))
    · intro h i hi
      exact beq_iff_eq.mpr (h i (List.mem_range.mp hi))
  refine ⟨hiff, ?_, ?_⟩
  · intro i hi hnone
    cases hc : (api_check_answer rand t ups).correct
    · rfl
    · have := hiff.mp hc i hi
      rw [hnone] at this
      exact Option.noConfusion this
  · intro i w hi hw hne
    cases hc : (api_check_answer rand t ups).correct
    · rfl
    · have := hiff.mp hc i hi
      rw [hw] at this
      exact absurd (Option.some.inj this) hne

/-- C1 witness: on the template a2_dass_01, flipping the token at word
position 0 to a different word makes the overall check false; the
hypotheses of the flip clause are discharged at this concrete input. -/
theorem c1_witness :
    (api_check_answer rand0 tmpl_a2_dass_01
      [{ slot_index := 0, word := "Falsch" },
       { slot_index := 1, word := "weiß" },
       { slot_index := 2, word := "dass" },
       { slot_index := 3, word := "er" },
       { slot_index := 4, word := "jeden" },
       { slot_index := 5, word := "Tag" },
       { slot_index := 6, word := "Deutsch" },
       { slot_index := 7, word := "lernt" }]).correct = false :=
  (c1_full_sentence_check rand0 tmpl_a2_dass_01
      [{ slot_index := 0, word := "Falsch" },
       { slot_index := 1, word := "weiß" },
       { slot_index := 2, word := "dass" },
       { slot_index := 3, word := "er" },
       { slot_index := 4, word := "jeden" },
       { slot_index := 5, word := "Tag" },
       { slot_index := 6, word := "Deutsch" },
       { slot_index := 7, word := "lernt" }]).2.2 0 "Falsch"
    (by decide) (by decide) (by decide)

/-- C2: the payload built by the JSON API route copies the full ordered
word list of the sentence, so cleaning its entries recovers every slot
expected token in position — the payload leaks the whole answer; at the
concrete template a2_dass_01 the served field is literally the correct
sentence. -/
theorem c2_api_payload_leak (rand : ℕ → ℕ) (t : Template) :
    ((api_safe_exercise (prepare_exercise rand t)).words.map clean_word =
      (prepare_exercise rand t).all_slots.map (fun s => s.correct_word)) ∧
    ((api_safe_exercise (prepare_exercise rand0 tmpl_a2_dass_01)).words =
      ["Ich", "weiß,", "dass", "er", "jeden", "Tag", "Deutsch", "lernt."]) := by
  constructor
  · show (py_split t.text).map clean_word =
      ((List.range (py_split t.text).length).map (fun i =>
        { index := i
          correct_word := clean_word ((py_split t.text).getD i "")
          suffix := word_suffix ((py_split t.text).getD i "")
          is_verb := (compute_positions t.text t.verbs).contains i
          : Slot })).map (fun s => s.correct_word)
    rw [List.map_map]
    apply List.ext_getElem
    · simp
    · intro i h1 h2
      have hi : i < (py_split t.text).length := by simpa using h1
      simp only [List.getElem_map, List.getElem_range, Function.comp]
      rw [List.getD_eq_getElem _ _ hi]
  · rfl

/-- Every position produced by `compute_positions` carries a cleaned word
that is one of the template verbs. -/
theorem compute_positions_sound (text : String) (verbs : List String) :
    ∀ p ∈ compute_positions text verbs,
      clean_word ((py_split text).getD p "") ∈ verbs := by
  have key : ∀ (vs : List String) (acc : List ℕ),
      ∀ p ∈ vs.foldl
        (fun acc verb =>
          match find_pos (py_split text) acc verb with
          | some i => acc ++ [i]
          | none => acc) acc,
      p ∈ acc ∨ ∃ v ∈ vs, clean_word ((py_split text).getD p "") = v := by
    intro vs
    induction vs with
    | nil => intro acc p hp; exact Or.inl hp
    | cons v vs ih =>
      intro acc p hp
      rw [List.foldl_cons] at hp
      rcases ih _ p hp with h1 | ⟨v', hv', he⟩
      · cases hfp : find_pos (py_split text) acc v with
        | none => rw [hfp] at h1; exact Or.inl h1
        | some i =>
          rw [hfp] at h1
          rcases List.mem_append.mp h1 with h2 | h2
          · exact Or.inl h2
          · have hpi : p = i := by simpa using h2
            subst hpi
            have hpred := List.find?_some hfp
            simp only [Bool.and_eq_true, beq_iff_eq] at hpred
            exact Or.inr ⟨v, List.mem_cons_self v vs, hpred.1⟩
      · exact Or.inr ⟨v', List.mem_cons_of_mem v hv', he⟩
  intro p hp
  rcases key verbs [] p hp with h1 | ⟨v, hv, he⟩
  · simp at h1
  · rw [he]; exact hv

/-- Membership in the verb slots of a prepared exercise: the slot index is
one of the computed verb positions and the expected verb is the cleaned
word at that index. -/
theorem mem_verb_slots (rand : ℕ → ℕ) (t : Template) (s : VerbSlot)
    (hs : s ∈ (prepare_exercise rand t).verb_slots) :
    s.index ∈ compute_positions t.text t.verbs ∧
    s.correct_verb = clean_word ((py_split t.text).getD s.index "") := by
  obtain ⟨s0, hs0, rfl⟩ := List.mem_map.mp hs
  obtain ⟨hs0m, hs0v⟩ := List.mem_filter.mp hs0
  obtain ⟨i, hi, rfl⟩ := List.mem_map.mp hs0m
  refine ⟨?_, rfl⟩
  simpa using hs0v

/-- The expected verb of every verb slot appears in the template verb
list. -/
theorem verb_slot_correct_mem_verbs (rand : ℕ → ℕ) (t : Template)
    (s : VerbSlot) (hs : s ∈ (prepare_exercise rand t).verb_slots) :
    s.correct_verb ∈ t.verbs := by
  obtain ⟨hpos, hword⟩ := mem_verb_slots rand t s hs
  rw [hword]
  exact compute_positions_sound t.text t.verbs s.index hpos

/-- C6 (amended): for a reconstruction exercise whose clause type contains
perfekt or plusquam, an incorrect verb slot whose submitted token is the
expected token of some different verb slot is classified auxiliary before
participle when the submitted token is in the closed auxiliary list and
wrong verb order otherwise. In the concrete swap on the
perfekt_in_nebensatz template b1_perfekt_01, it is the slot expecting
gelesen (where the auxiliary hat was placed) that is classified auxiliary
before participle, while the slot expecting hat (where gelesen was
placed) is classified wrong verb order — not the other way round as the
claim stated. -/
theorem c6_aux_before_participle (rand : ℕ → ℕ) (t : Template)
    (slot : VerbSlot) (placed : String) :
    ((slot ∈ (prepare_exercise rand t).verb_slots) →
      (∃ s ∈ (prepare_exercise rand t).verb_slots,
        s.correct_verb = placed ∧ s.index ≠ slot.index) →
      (str_contains t.clause_type "perfekt" = true ∨
        str_contains t.clause_type "plusquam" = true) →
      classify_error (prepare_exercise rand t) slot placed slot.correct_verb =
        if placed ∈ aux_forms then "auxiliary_before_participle"
        else "wrong_verb_order") ∧
    ((analyze_errors (prepare_exercise rand0 tmpl_b1_perfekt_01)
        [{ slot_index := 0, verb := "hat" },
         { slot_index := 1, verb := "gelesen" }]).map
      (fun e => (e.position, e.expected, e.got, e.category)) =
      [(7, "gelesen", some "hat", "auxiliary_before_participle"),
       (8, "hat", some "gelesen", "wrong_verb_order")]) := by
  constructor
  · intro hslot hex hperf
    obtain ⟨s, hs_mem, hs_val, hs_idx⟩ := hex
    have hv1 : (prepare_exercise rand t).verbs.contains placed = true := by
      have : placed ∈ t.verbs := by
        rw [← hs_val]; exact verb_slot_correct_mem_verbs rand t s hs_mem
      simpa using this
    have hv2 : (prepare_exercise rand t).verbs.contains slot.correct_verb = true := by
      have := verb_slot_correct_mem_verbs rand t slot hslot
      simpa using this
    have hany : (prepare_exercise rand t).slots.any
        (fun s => s.correct_verb == placed && s.index != slot.index) = true := by
      refine List.any_eq_true.mpr ⟨s, hs_mem, ?_⟩
      simp [hs_val, hs_idx]
    have hpp : (str_contains (prepare_exercise rand t).clause_type "perfekt" ||
        str_contains (prepare_exercise rand t).clause_type "plusquam") = true := by
      rcases hperf with h | h
      · show (str_contains t.clause_type "perfekt" || _) = true
        rw [h]; rfl
      · show (_ || str_contains t.clause_type "plusquam") = true
        rw [h]
        exact Bool.or_true _
    simp only [classify_error, hv1, hv2, hany, hpp, Bool.and_self,
      Bool.true_and, if_true]
    by_cases hax : placed ∈ aux_forms <;> simp [hax]
  · rfl

/-- C6 counterexample: in the verb-swap submission on the
perfekt_in_nebensatz template b1_perfekt_01, the error for the slot
expecting hat carries category wrong verb order, not auxiliary before
participle as the claim asserts. -/
theorem c6_counterexample :
    ((analyze_errors (prepare_exercise rand0 tmpl_b1_perfekt_01)
        [{ slot_index := 0, verb := "hat" },
         { slot_index := 1, verb := "gelesen" }]).find?
      (fun e => e.expected == "hat")).map (fun e => e.category) =
      some "wrong_verb_order" := by
  rfl

/-- Whatever its inputs, the classifier returns one of the sixteen fixed
category keys. -/
theorem classify_error_mem_keys (ex : Exercise) (slot : VerbSlot)
    (placed expected : String) :
    classify_error ex slot placed expected ∈ error_category_keys := by
  unfold classify_error
  split_ifs <;> decide

/-- A submitted token that is not one of the exercise verbs always falls
back to the default category. -/
theorem classify_error_unknown_token (ex : Exercise) (slot : VerbSlot)
    (placed expected : String) (h : placed ∉ ex.verbs) :
    classify_error ex slot placed expected = "verb_not_at_end" := by
  have hc : ex.verbs.contains placed = false := by simp [h]
  simp only [classify_error, hc, Bool.false_and, Bool.and_false]
  simp

/-- C8: error analysis is total and closed over the fixed category table.
Every error produced for any exercise and any verb-placement list carries
a category drawn from the sixteen ERROR_CATEGORIES keys, never empty; an
omitted verb slot is classified verb not at clause end, and a submitted
token that is not any expected answer token falls back to the same
default category. -/
theorem c8_classifier_coverage (ex : Exercise) (ups : List VerbPlacement) :
    ∀ e ∈ analyze_errors ex ups,
      e.category ∈ error_category_keys ∧
      e.category ≠ "" ∧
      (e.got = none → e.category = "verb_not_at_end") ∧
      (∀ w, e.got = some w → w ∉ ex.verbs →
        e.category = "verb_not_at_end") := by
  intro e he
  have hkeys_ne : ∀ c ∈ error_category_keys, c ≠ "" := by decide
  unfold analyze_errors at he
  obtain ⟨slot, hslot, hf⟩ := List.mem_filterMap.mp he
  split at hf
  · obtain rfl := Option.some.inj hf
    refine ⟨?_, ?_, fun _ => rfl, ?_⟩
    · show "verb_not_at_end" ∈ error_category_keys
      decide
    · show "verb_not_at_end" ≠ ""
      decide
    · intro w hw
      exact absurd hw (by simp)
  · rename_i placed hmeq
    split at hf
    · obtain rfl := Option.some.inj hf
      have hmem := classify_error_mem_keys ex slot placed slot.correct_verb
      refine ⟨hmem, hkeys_ne _ hmem, ?_, ?_⟩
      · intro hgot
        exact Option.noConfusion hgot
      · intro w hw hwv
        obtain rfl : placed = w := Option.some.inj hw
        exact classify_error_unknown_token ex slot placed slot.correct_verb hwv
    · exact absurd hf (by simp)

/-- C8 witness: on the template a2_dass_01 with an empty submission, the
produced error for the omitted verb slot has a category from the fixed
table; the membership hypothesis is discharged at this concrete input. -/
theorem c8_witness :
    ({ category := "verb_not_at_end"
       expected := "lernt"
       got := none
       position := 7
       detail := "No verb placed at position 7. Expected \x27lernt\x27." }
        : ClassifiedError).category ∈ error_category_keys :=
  (c8_classifier_coverage (prepare_exercise rand0 tmpl_a2_dass_01) [] _
    (by decide)).1

section FoldCollect

variable {γ β : Type} (f : γ → β) (p : γ → Prop) [DecidablePred p]

/-- Elements of a guarded collecting fold come from the initial
accumulator or from an input element. -/
theorem mem_foldl_collect :
    ∀ (l : List γ) (a : List β) (x : β),
      x ∈ l.foldl (fun acc u => if p u then acc ++ [f u] else acc) a →
      x ∈ a ∨ ∃ u ∈ l, x = f u := by
  intro l
  induction l with
  | nil => intro a x hx; exact Or.inl hx
  | cons u l ih =>
    intro a x hx
    rw [List.foldl_cons] at hx
    rcases ih _ x hx with h1 | ⟨v, hv, he⟩
    · by_cases hp : p u
      · rw [if_pos hp] at h1
        rcases List.mem_append.mp h1 with h2 | h2
        · exact Or.inl h2
        · exact Or.inr ⟨u, List.mem_cons_self u l, by simpa using h2⟩
      · rw [if_neg hp] at h1
        exact Or.inl h1
    · exact Or.inr ⟨v, List.mem_cons_of_mem u hv, he⟩

/-- A guarded collecting fold keeps the initial accumulator. -/
theorem mem_foldl_collect_acc :
    ∀ (l : List γ) (a : List β) (x : β), x ∈ a →
      x ∈ l.foldl (fun acc u => if p u then acc ++ [f u] else acc) a := by
  intro l
  induction l with
  | nil => intro a x hx; exact hx
  | cons u l ih =>
    intro a x hx
    rw [List.foldl_cons]
    apply ih
    by_cases hp : p u
    · rw [if_pos hp]; exact List.mem_append_left _ hx
    · rw [if_neg hp]; exact hx

/-- Every input element passing the guard contributes its image to the
fold result. -/
theorem mem_foldl_collect_intro :
    ∀ (l : List γ) (a : List β) (u : γ), u ∈ l → p u →
      f u ∈ l.foldl (fun acc v => if p v then acc ++ [f v] else acc) a := by
  intro l
  induction l with
  | nil => intro a u hu; exact absurd hu (List.not_mem_nil u)
  | cons v l ih =>
    intro a u hu hp
    rw [List.foldl_cons]
    rcases List.mem_cons.mp hu with rfl | hu'
    · apply mem_foldl_collect_acc
      rw [if_pos hp]
      exact List.mem_append_right _ (List.mem_singleton.mpr rfl)
    · exact ih _ u hu' hp

end FoldCollect

/-- Every entry of the user map built by the answer-check flow records,
for some verb slot, the submitted word at that slot index. -/
theorem user_map_entries (ex : Exercise) (ups : List Placement) :
    ∀ kv ∈ build_user_map ex.verb_slots (verb_user_positions ex ups),
      ∃ s ∈ ex.verb_slots,
        kv = (s.index, (lookup_user_word ups s.index).getD "") := by
  intro kv hkv
  unfold build_user_map at hkv
  rcases mem_foldl_collect
      (fun up : VerbPlacement =>
        ((ex.verb_slots.getD up.slot_index (⟨0, "", ""⟩ : VerbSlot)).index,
          up.verb))
      (fun up : VerbPlacement => up.slot_index < ex.verb_slots.length)
      (verb_user_positions ex ups) [] kv hkv with h1 | ⟨u, hu, he⟩
  · exact absurd h1 (List.not_mem_nil kv)
  · unfold verb_user_positions at hu
    obtain ⟨k, hk, rfl⟩ := List.mem_map.mp hu
    have hk' : k < ex.verb_slots.length := List.mem_range.mp hk
    refine ⟨ex.verb_slots.getD k (⟨0, "", ""⟩ : VerbSlot), ?_, ?_⟩
    · rw [List.getD_eq_getElem _ _ hk']
      exact List.getElem_mem hk'
    · rw [he]

/-- Every verb slot index is covered by an entry of the user map. -/
theorem user_map_covers (ex : Exercise) (ups : List Placement) (k : ℕ)
    (hk : k < ex.verb_slots.length) :
    ((ex.verb_slots.getD k (⟨0, "", ""⟩ : VerbSlot)).index,
      (lookup_user_word ups
        (ex.verb_slots.getD k (⟨0, "", ""⟩ : VerbSlot)).index).getD "")
      ∈ build_user_map ex.verb_slots (verb_user_positions ex ups) := by
  unfold build_user_map
  have hu : (⟨k, (lookup_user_word ups
        (ex.verb_slots.getD k (⟨0, "", ""⟩ : VerbSlot)).index).getD ""⟩
        : VerbPlacement) ∈ verb_user_positions ex ups := by
    unfold verb_user_positions
    exact List.mem_map.mpr ⟨k, List.mem_range.mpr hk, rfl⟩
  exact mem_foldl_collect_intro
    (fun up : VerbPlacement =>
      ((ex.verb_slots.getD up.slot_index (⟨0, "", ""⟩ : VerbSlot)).index,
        up.verb))
    (fun up : VerbPlacement => up.slot_index < ex.verb_slots.length)
    (verb_user_positions ex ups) [] _ hu hk

/-- When every verb slot received its expected verb, the user map read by
the error analyzer returns exactly that verb at every verb slot index. -/
theorem map_get_correct (ex : Exercise) (ups : List Placement)
    (h1 : ∀ s ∈ ex.verb_slots,
      lookup_user_word ups s.index = some s.correct_verb) :
    ∀ s ∈ ex.verb_slots,
      map_get (build_user_map ex.verb_slots (verb_user_positions ex ups))
        s.index = some s.correct_verb := by
  intro s hs
  obtain ⟨k, hk, hsk⟩ := List.mem_iff_getElem.mp hs
  unfold map_get
  cases hfind : (build_user_map ex.verb_slots
      (verb_user_positions ex ups)).reverse.find? (fun p => p.1 == s.index) with
  | none =>
    exfalso
    have hcov := user_map_covers ex ups k hk
    rw [List.getD_eq_getElem _ _ hk, hsk] at hcov
    have hrev : (s.index, (lookup_user_word ups s.index).getD "") ∈
        (build_user_map ex.verb_slots (verb_user_positions ex ups)).reverse :=
      List.mem_reverse.mpr hcov
    have := List.find?_eq_none.mp hfind _ hrev
    simp at this
  | some kv =>
    have hkv_mem : kv ∈ build_user_map ex.verb_slots
        (verb_user_positions ex ups) :=
      List.mem_reverse.mp (List.mem_of_find?_eq_some hfind)
    have hkey : kv.1 = s.index := by
      have := List.find?_some hfind
      simpa using this
    obtain ⟨s', hs', hkv_eq⟩ := user_map_entries ex ups kv hkv_mem
    have hidx : s'.index = s.index := by
      rw [hkv_eq] at hkey
      simpa using hkey
    have hl1 := h1 s' hs'
    have hl2 := h1 s hs
    rw [hidx, hl2] at hl1
    have hcv : s'.correct_verb = s.correct_verb := (Option.some.inj hl1).symm
    show some kv.2 = some s.correct_verb
    rw [hkv_eq]
    show some ((lookup_user_word ups s'.index).getD "") = some s.correct_verb
    rw [hidx, hl2]
    rfl

/-- C10: when every verb slot of a reconstruction exercise holds its
expected verb but some non-verb word position holds a wrong or missing
token, the answer check reports overall incorrect while the error
classifier, which inspects only the verb slots, produces no errors — so
no error is logged and no retry is scheduled for the failed attempt. -/
theorem c10_incorrect_without_errors (rand : ℕ → ℕ) (t : Template)
    (ups : List Placement) :
    (∀ s ∈ (prepare_exercise rand t).verb_slots,
        lookup_user_word ups s.index = some s.correct_verb) →
    (∃ s ∈ (prepare_exercise rand t).all_slots,
        s.is_verb = false ∧
        lookup_user_word ups s.index ≠ some s.correct_word) →
    (api_check_answer rand t ups).correct = false ∧
    (api_check_answer rand t ups).errors = [] ∧
    retries_scheduled (api_check_answer rand t ups) = 0 ∧
    errors_logged (api_check_answer rand t ups) = 0 := by
  intro h1 h2
  have herr : (api_check_answer rand t ups).errors = [] := by
    show analyze_errors (prepare_exercise rand t)
      (verb_user_positions (prepare_exercise rand t) ups) = []
    unfold analyze_errors
    rw [List.filterMap_eq_nil_iff]
    intro slot hslot
    have hsl : (prepare_exercise rand t).slots
        = (prepare_exercise rand t).verb_slots := rfl
    rw [hsl] at hslot ⊢
    have hm := map_get_correct (prepare_exercise rand t) ups h1 slot hslot
    simp only [hm]
    simp
  have hfalse : (api_check_answer rand t ups).correct = false := by
    obtain ⟨s, hs_mem, hs_nv, hs_ne⟩ := h2
    obtain ⟨i, hi, rfl⟩ := List.mem_map.mp hs_mem
    have hi' : i < (py_split t.text).length := List.mem_range.mp hi
    cases hc : (api_check_answer rand t ups).correct
    · rfl
    · exfalso
      rw [api_correct_eq_all] at hc
      have := List.all_eq_true.mp hc i (List.mem_range.mpr hi')
      exact hs_ne (beq_iff_eq.mp this)
  refine ⟨hfalse, herr, ?_, ?_⟩
  · show (api_check_answer rand t ups).errors.length = 0
    rw [herr]
    rfl
  · show (api_check_answer rand t ups).errors.length = 0
    rw [herr]
    rfl

/-- The earliest-first selection returns nothing exactly on the empty
list. -/
theorem min_by_sched_none_iff (l : List RetryEntry) :
    min_by_sched l = none ↔ l = [] := by
  induction l with
  | nil => simp [min_by_sched]
  | cons e es ih =>
    simp only [min_by_sched]
    constructor
    · intro hc
      split at hc
      · exact Option.noConfusion hc
      · split_ifs at hc
    · intro hc
      exact List.noConfusion hc

/-- The earliest-first selection returns a member whose scheduled date is
minimal. -/
theorem min_by_sched_spec :
    ∀ (l : List RetryEntry) (e : RetryEntry), min_by_sched l = some e →
      e ∈ l ∧ ∀ x ∈ l, e.scheduled_after ≤ x.scheduled_after := by
  intro l
  induction l with
  | nil => intro e h; exact Option.noConfusion h
  | cons a es ih =>
    intro e h
    simp only [min_by_sched] at h
    split at h
    · rename_i hr
      obtain rfl := Option.some.inj h
      have hes : es = [] := (min_by_sched_none_iff es).mp hr
      subst hes
      refine ⟨List.mem_singleton.mpr rfl, ?_⟩
      intro x hx
      obtain rfl := List.mem_singleton.mp hx
      exact le_refl _
    · rename_i b hr
      obtain ⟨hb_mem, hb_min⟩ := ih b hr
      split_ifs at h with hle
      · obtain rfl := Option.some.inj h
        refine ⟨List.mem_cons_self a es, ?_⟩
        intro x hx
        rcases List.mem_cons.mp hx with rfl | hx'
        · exact le_refl _
        · exact le_trans hle (hb_min x hx')
      · obtain rfl := Option.some.inj h
        refine ⟨List.mem_cons_of_mem a hb_mem, ?_⟩
        intro x hx
        rcases List.mem_cons.mp hx with rfl | hx'
        · omega
        · exact hb_min x hx'

/-- C5: every logged error enqueues a retry entry scheduled for today
plus the delay (2 in every caller); the retrieval returns none exactly
when no entry of the user is incomplete and due, and otherwise returns a
due incomplete entry with the earliest scheduled date. A fresh entry
scheduled for today plus two is not returned when queried one day later
but is returned two days later, and a due retry takes priority over a
freshly drawn exercise in the exercise page. -/
theorem c5_retry_queue :
    (∀ (q : List RetryEntry) (user : String) (today : ℤ),
      get_retry_template q user today = none ↔
        ∀ e ∈ q, retry_due user today e = false) ∧
    (∀ (q : List RetryEntry) (user : String) (today : ℤ) (e : RetryEntry),
      get_retry_template q user today = some e →
        e ∈ q ∧ retry_due user today e = true ∧
        ∀ x ∈ q, retry_due user today x = true →
          e.scheduled_after ≤ x.scheduled_after) ∧
    (∀ (next_id : ℕ) (user tid : String) (eid : ℕ) (today : ℤ),
      ((schedule_retry [] next_id user tid eid today 2).map
        (fun e => e.scheduled_after) = [today + 2]) ∧
      get_retry_template (schedule_retry [] next_id user tid eid today 2)
        user (today + 1) = none ∧
      get_retry_template (schedule_retry [] next_id user tid eid today 2)
        user (today + 2) =
        some { id := next_id, user_token := user, template_id := tid,
               source_error_id := eid, scheduled_after := today + 2,
               completed := false }) ∧
    (∀ (q : List RetryEntry) (user : String) (today : ℤ)
        (bank : List Template) (fresh : Option Template)
        (r : RetryEntry) (t : Template),
      get_retry_template q user today = some r →
      get_template_by_id bank r.template_id = some t →
      exercise_page_choice q user today false bank fresh =
        (some t, some r.id)) := by
  refine ⟨?_, ?_, ?_, ?_⟩
  · intro q user today
    unfold get_retry_template
    rw [min_by_sched_none_iff, List.filter_eq_nil_iff]
    constructor
    · intro h e he
      by_cases hd : retry_due user today e = true
      · exact absurd hd (h e he)
      · exact Bool.not_eq_true _ ▸ (by simpa using hd)
    · intro h e he
      rw [h e he]
      exact Bool.false_ne_true
  · intro q user today e hget
    unfold get_retry_template at hget
    obtain ⟨hmem, hmin⟩ := min_by_sched_spec _ e hget
    obtain ⟨hq, hdue⟩ := List.mem_filter.mp hmem
    refine ⟨hq, hdue, ?_⟩
    intro x hx hxdue
    exact hmin x (List.mem_filter.mpr ⟨hx, hxdue⟩)
  · intro next_id user tid eid today
    refine ⟨rfl, ?_, ?_⟩
    · have h1 : ¬(today + 2 ≤ today + 1) := by omega
      simp [get_retry_template, schedule_retry, retry_due, min_by_sched, h1]
    · have h2 : today + 2 ≤ today + 2 := le_refl _
      simp [get_retry_template, schedule_retry, retry_due, min_by_sched, h2]
  · intro q user today bank fresh r t hr ht
    simp [exercise_page_choice, hr, ht]

/-- C5 witness: a due incomplete retry entry is served by the exercise
page ahead of any fresh draw; the hypotheses of the priority clause are
discharged at this concrete queue and bank. -/
theorem c5_witness :
    exercise_page_choice
      [{ id := 1, user_token := "u", template_id := "a2_dass_01",
         source_error_id := 9, scheduled_after := 3, completed := false }]
      "u" 5 false [tmpl_a2_dass_01] none =
      (some tmpl_a2_dass_01, some 1) :=
  c5_retry_queue.2.2.2
    [{ id := 1, user_token := "u", template_id := "a2_dass_01",
       source_error_id := 9, scheduled_after := 3, completed := false }]
    "u" 5 [tmpl_a2_dass_01] none
    { id := 1, user_token := "u", template_id := "a2_dass_01",
      source_error_id := 9, scheduled_after := 3, completed := false }
    tmpl_a2_dass_01 (by decide) (by decide)

/-- C6 witness: in the b1_perfekt_01 swap, the classifier output for the
slot expecting hat with the misplaced token gelesen follows the
auxiliary-list rule; the hypotheses are discharged at this concrete
exercise. -/
theorem c6_witness :
    classify_error (prepare_exercise rand0 tmpl_b1_perfekt_01)
      { index := 8, correct_verb := "hat", suffix := "." } "gelesen" "hat" =
      if "gelesen" ∈ aux_forms then "auxiliary_before_participle"
      else "wrong_verb_order" :=
  (c6_aux_before_participle rand0 tmpl_b1_perfekt_01
      { index := 8, correct_verb := "hat", suffix := "." } "gelesen").1
    (by decide) (by decide) (by decide)

/-- C7 witness: submitting a single token against the four-token target
of pass_003 yields an overall incorrect result; the shortness hypothesis
is discharged at this concrete input. -/
theorem c7_witness :
    (check_transformation pass_003_target_words
      [{ slot_index := 0, word := "Die" }]).2 = false :=
  (c7_transformation_check pass_003_target_words
    [{ slot_index := 0, word := "Die" }]).2.1 (by decide)

/-- C10 witness: on a2_dass_01 with the verb correctly placed but a wrong
word at position 0, the check is overall incorrect yet classifies no
errors, logs nothing and schedules no retry; both hypotheses are
discharged at this concrete submission. -/
theorem c10_witness :
    (api_check_answer rand0 tmpl_a2_dass_01
      [{ slot_index := 0, word := "Verkehrt" },
       { slot_index := 1, word := "weiß" },
       { slot_index := 2, word := "dass" },
       { slot_index := 3, word := "er" },
       { slot_index := 4, word := "jeden" },
       { slot_index := 5, word := "Tag" },
       { slot_index := 6, word := "Deutsch" },
       { slot_index := 7, word := "lernt" }]).correct = false ∧
    (api_check_answer rand0 tmpl_a2_dass_01
      [{ slot_index := 0, word := "Verkehrt" },
       { slot_index := 1, word := "weiß" },
       { slot_index := 2, word := "dass" },
       { slot_index := 3, word := "er" },
       { slot_index := 4, word := "jeden" },
       { slot_index := 5, word := "Tag" },
       { slot_index := 6, word := "Deutsch" },
       { slot_index := 7, word := "lernt" }]).errors = [] ∧
    retries_scheduled (api_check_answer rand0 tmpl_a2_dass_01
      [{ slot_index := 0, word := "Verkehrt" },
       { slot_index := 1, word := "weiß" },
       { slot_index := 2, word := "dass" },
       { slot_index := 3, word := "er" },
       { slot_index := 4, word := "jeden" },
       { slot_index := 5, word := "Tag" },
       { slot_index := 6, word := "Deutsch" },
       { slot_index := 7, word := "lernt" }]) = 0 ∧
    errors_logged (api_check_answer rand0 tmpl_a2_dass_01
      [{ slot_index := 0, word := "Verkehrt" },
       { slot_index := 1, word := "weiß" },
       { slot_index := 2, word := "dass" },
       { slot_index := 3, word := "er" },
       { slot_index := 4, word := "jeden" },
       { slot_index := 5, word := "Tag" },
       { slot_index := 6, word := "Deutsch" },
       { slot_index := 7, word := "lernt" }]) = 0 :=
  c10_incorrect_without_errors rand0 tmpl_a2_dass_01
    [{ slot_index := 0, word := "Verkehrt" },
     { slot_index := 1, word := "weiß" },
     { slot_index := 2, word := "dass" },
     { slot_index := 3, word := "er" },
     { slot_index := 4, word := "jeden" },
     { slot_index := 5, word := "Tag" },
     { slot_index := 6, word := "Deutsch" },
     { slot_index := 7, word := "lernt" }] (by decide) (by decide)

end GermanApp
